import Mathlib

/-!
Verification of the `CircularLogger` repository (src/CircularLogger.h,
src/CircularLogger.cpp) against its natural-language specification.

The C++ code is shallowly embedded: timestamps (`std::time_t` values produced
by `system_clock::to_time_t`) are modelled as `Nat` seconds since the Unix
epoch, `localtime_s` / `mktime` are modelled as a fixed-offset (UTC, no DST)
proleptic Gregorian conversion, the log directory is modelled as a list of
entries carrying the data the code inspects (path name, last-write time,
regular-file flag), and each member function of `CircularLogger` becomes a
pure function or a state-transition function.
-/

namespace CircularLogger

/-! ### Calendar model for `localtime_s` and `mktime`

`CircularLogger.cpp` converts `time_t` to broken-down civil time with
`localtime_s` (lines 24-27, 123-124) and back with `mktime` (line 137).
These libc functions are modelled for the timezone UTC (fixed offset, no
daylight-saving jumps): days are peeled off year by year and month by month,
exactly as a naive libc implementation does.  The recursions carry an
explicit fuel argument so that the definitions stay structurally recursive
and evaluate inside the kernel. -/

/-- Gregorian leap-year rule. -/
def isLeap (y : Nat) : Bool := decide ((y % 4 = 0 ∧ y % 100 ≠ 0) ∨ y % 400 = 0)

/-- Number of days of year `y`. -/
def daysInYear (y : Nat) : Nat := if isLeap y then 366 else 365

/-- Length of month `m` (1-12) in a (non-)leap year. -/
def monthLen (leap : Bool) (m : Nat) : Nat :=
  if m = 2 then (if leap then 29 else 28)
  else if m = 4 ∨ m = 6 ∨ m = 9 ∨ m = 11 then 30 else 31

/-- Starting from year `y` with `d` days remaining, advance whole years;
returns the final year and the day-of-year. -/
def splitYearAux : Nat → Nat → Nat → Nat × Nat
  | 0, y, d => (y, d)
  | fuel + 1, y, d =>
    if daysInYear y ≤ d then splitYearAux fuel (y + 1) (d - daysInYear y)
    else (y, d)

def splitYear (y d : Nat) : Nat × Nat := splitYearAux (d + 1) y d

/-- Days from 1970-01-01 to the start of year `y`. -/
def daysUpto : Nat → Nat
  | 0 => 0
  | y + 1 => if 1970 ≤ y then daysUpto y + daysInYear y else 0

/-- Starting from month `m` with `d` days remaining, advance whole months;
returns the final month and the (0-based) day-of-month. -/
def splitMonthAux (leap : Bool) : Nat → Nat → Nat → Nat × Nat
  | 0, m, d => (m, d)
  | fuel + 1, m, d =>
    if m < 12 ∧ monthLen leap m ≤ d then
      splitMonthAux leap fuel (m + 1) (d - monthLen leap m)
    else (m, d)

def splitMonth (leap : Bool) (m d : Nat) : Nat × Nat := splitMonthAux leap 12 m d

/-- Days from the start of the year to the start of month `m`. -/
def monthUpto (leap : Bool) : Nat → Nat
  | 0 => 0
  | m + 1 => if 1 ≤ m then monthUpto leap m + monthLen leap m else 0

/-- `(year, month, day)` of day number `d` (days since 1970-01-01),
month `1..12`, day `1..31`. -/
def civilOfDays (d : Nat) : Nat × Nat × Nat :=
  let p := splitYear 1970 d
  let q := splitMonth (isLeap p.1) 1 p.2
  (p.1, q.1, q.2 + 1)

/-- Day number (days since 1970-01-01) of a civil date; the inverse
direction used by `mktime`. -/
def daysFromCivil (y m day : Nat) : Nat :=
  daysUpto y + monthUpto (isLeap y) m + (day - 1)

/-- Broken-down time, modelling the fields of `std::tm` that the logger
reads or writes (`tm_year + 1900`, `tm_mon + 1`, `tm_mday`, `tm_hour`,
`tm_min`, `tm_sec`). -/
structure Tm where
  year : Nat
  mon : Nat
  mday : Nat
  hour : Nat
  min : Nat
  sec : Nat
deriving Repr, DecidableEq

/-- Model of `localtime_s` (UTC): break a `time_t` into civil fields. -/
def localtime (t : Nat) : Tm :=
  let c := civilOfDays (t / 86400)
  { year := c.1, mon := c.2.1, mday := c.2.2,
    hour := t % 86400 / 3600, min := t % 86400 % 3600 / 60,
    sec := t % 86400 % 3600 % 60 }

/-- Model of `mktime` (UTC): rebuild a `time_t` from civil fields.  Like the
libc function it accepts out-of-range `hour`/`min`/`sec` values (the logger
adds `frequency` to a field, line 126/131/135) and normalizes them by plain
arithmetic. -/
def mktime (tm : Tm) : Nat :=
  daysFromCivil tm.year tm.mon tm.mday * 86400 +
    tm.hour * 3600 + tm.min * 60 + tm.sec

/-! ### Decimal formatting

`generateLogFileName` (lines 101-114) formats fields with `std::put_time`:
`%Y` prints the year in decimal, `%m`, `%d`, `%H`, `%M`, `%S` print
two-digit zero-padded decimals.  Decimal printing of a `Nat` is core
`Nat.repr`; a decimal decoder `decNatL` proves the formats injective. -/

/-- Two-digit zero-padded decimal, the model of `put_time` with `%m`, `%d`,
`%H`, `%M`, `%S`. -/
def pad2 (n : Nat) : String := if n < 10 then "0" ++ Nat.repr n else Nat.repr n

def decStep (acc : Nat) (c : Char) : Nat := acc * 10 + (c.toNat - 48)

/-- Decimal decoder, the left inverse of decimal formatting. -/
def decNatL (l : List Char) : Nat := l.foldl decStep 0

/-! ### `CircularLogger::generateLogFileName` (lines 101-114) -/

/-- The date part written by `put_time(&timeInfo, "%Y-%m-%d")` (line 103). -/
def dateStamp (timeInfo : Tm) : String :=
  Nat.repr timeInfo.year ++ "-" ++ pad2 timeInfo.mon ++ "-" ++ pad2 timeInfo.mday

/-- Embedding of `CircularLogger::generateLogFileName`: the date
(`put_time "%Y-%m-%d"`), then a suffix depending on `loggingType`
(`"-%H"`, `"-%H-%M"` or `"-%H-%M-%S"`, nothing for any other value),
then the fixed `.log` extension. -/
def generateLogFileName (loggingType : String) (timeInfo : Tm) : String :=
  (if loggingType = "hour" then dateStamp timeInfo ++ "-" ++ pad2 timeInfo.hour
   else if loggingType = "minute" then
     dateStamp timeInfo ++ "-" ++ pad2 timeInfo.hour ++ "-" ++ pad2 timeInfo.min
   else if loggingType = "second" then
     dateStamp timeInfo ++ "-" ++ pad2 timeInfo.hour ++ "-" ++
       pad2 timeInfo.min ++ "-" ++ pad2 timeInfo.sec
   else dateStamp timeInfo) ++ ".log"

/-! ### `CircularLogger::calculateNextRotationTime` (lines 122-138) -/

/-- Embedding of `CircularLogger::calculateNextRotationTime`: break the
current time into fields, add `frequency` to the field selected by
`loggingType` (zeroing the smaller fields), rebuild with `mktime`.  For an
unrecognized `loggingType` no branch fires and the time is returned
unchanged. -/
def calculateNextRotationTime (loggingType : String) (frequency : Nat)
    (currentTime : Nat) : Nat :=
  if loggingType = "hour" then
    mktime { localtime currentTime with
      hour := (localtime currentTime).hour + frequency, min := 0, sec := 0 }
  else if loggingType = "minute" then
    mktime { localtime currentTime with
      min := (localtime currentTime).min + frequency, sec := 0 }
  else if loggingType = "second" then
    mktime { localtime currentTime with
      sec := (localtime currentTime).sec + frequency }
  else mktime (localtime currentTime)

/-- The bucket length, in seconds, of each recognized granularity. -/
def unitLen (ty : String) : Nat :=
  if ty = "hour" then 3600 else if ty = "minute" then 60 else 1

/-! ### `CircularLogger::rotateLogs` (lines 144-161)

The log directory is modelled as a list of entries in directory-listing
order.  `rotateLogs` collects the regular files (lines 146-150), sorts them
ascending by last-write time (lines 152-154; `std::sort` guarantees only
some ascending order, ties in an unspecified order, which the model fixes
to a stable sort, i.e. listing order), then removes the front while the
count is at or above `maxEntries` (lines 157-160). -/

/-- A directory entry as seen by `fs::directory_iterator`: the sweep reads
only the path, the regular-file flag (line 147) and the last-write time
(line 153). -/
structure DirEntry where
  name : String
  mtime : Nat
  isRegularFile : Bool
deriving Repr, DecidableEq

/-- The `logFiles` vector collected at lines 146-150. -/
def regularFiles (entries : List DirEntry) : List DirEntry :=
  entries.filter (fun e => e.isRegularFile)

/-- `std::sort` by `fs::last_write_time(a) < fs::last_write_time(b)`,
modelled as a stable comparison sort (ties, which `std::sort` may order
arbitrarily, stay in listing order). -/
def sortByMtime (files : List DirEntry) : List DirEntry :=
  List.insertionSort (fun a b => a.mtime ≤ b.mtime) files

/-- The while-loop at lines 157-160: remove the front (oldest) element
while the count is at or above `maxEntries`. -/
def sweepLoop (maxEntries : Nat) : List DirEntry → List DirEntry
  | [] => []
  | f :: rest =>
    if maxEntries ≤ (f :: rest).length then sweepLoop maxEntries rest
    else f :: rest

/-- Directory contents after one `rotateLogs` sweep: entries that are not
regular files are never touched; the surviving regular files are the tail
left by the removal loop. -/
def rotateLogs (entries : List DirEntry) (maxEntries : Nat) : List DirEntry :=
  entries.filter (fun e => !e.isRegularFile) ++
    sweepLoop maxEntries (sortByMtime (regularFiles entries))

/-- The files `fs::remove`d by one sweep, oldest first. -/
def removedFiles (entries : List DirEntry) (maxEntries : Nat) : List DirEntry :=
  (sortByMtime (regularFiles entries)).take
    ((sortByMtime (regularFiles entries)).length + 1 - maxEntries)

/-! ### `CircularLogger::log` (lines 23-45) and the logger state -/

/-- The `logDirectory` member (header line 24). -/
def logDirectoryName : String := "Logs"

/-- The mutable state of a `CircularLogger` object together with the log
directory contents (the only part of the filesystem the logger touches). -/
structure LoggerState where
  loggingType : String
  frequency : Nat
  maxEntries : Nat
  currentLogFile : String
  nextRotationTime : Nat
  files : List DirEntry
deriving Repr, DecidableEq

/-- Effect on the directory of `std::ofstream(path, std::ios::app)` plus a
write (lines 43-44): create the file when the path names nothing, update
its modification time when it names a regular file, fail silently (no
change) when it names something else. -/
def writeAppend (entries : List DirEntry) (path : String) (now : Nat) :
    List DirEntry :=
  if entries.any (fun e => e.name = path) then
    entries.map (fun e =>
      if e.name = path ∧ e.isRegularFile then { e with mtime := now } else e)
  else entries ++ [⟨path, now, true⟩]

/-- The rotation condition of line 34, `nowTime >= nextRotationTime`. -/
def rotatesAt (s : LoggerState) (now : Nat) : Bool :=
  decide (s.nextRotationTime ≤ now)

/-- The path `fs::path(logDirectory) / logFileName` (lines 31, 37). -/
def logFilePath (ty : String) (now : Nat) : String :=
  logDirectoryName ++ "/" ++ generateLogFileName ty (localtime now)

/-- One `log()` call at timestamp `now`: compute the file name for `now`;
if the rotation deadline is reached, sweep, make that file current and
reset the deadline; in either case append to the current file. -/
def logStep (s : LoggerState) (now : Nat) : LoggerState :=
  if s.nextRotationTime ≤ now then
    { s with
      files := writeAppend (rotateLogs s.files s.maxEntries)
        (logFilePath s.loggingType now) now,
      currentLogFile := logFilePath s.loggingType now,
      nextRotationTime :=
        calculateNextRotationTime s.loggingType s.frequency now }
  else
    { s with files := writeAppend s.files s.currentLogFile now }

/-- A sequence of `log()` calls. -/
def runLog (s : LoggerState) (ts : List Nat) : LoggerState := ts.foldl logStep s

/-- A freshly constructed logger: `nextRotationTime = 0` and
`currentLogFile` empty (header lines 25-26); the policy fields come from
`loadConfig`, the directory may hold anything. -/
def initLogger (ty : String) (freq maxE : Nat) (files : List DirEntry) :
    LoggerState :=
  { loggingType := ty, frequency := freq, maxEntries := maxE,
    currentLogFile := "", nextRotationTime := 0, files := files }

/-- Every call in the list reaches the rotation deadline. -/
def allRotate (s : LoggerState) : List Nat → Bool
  | [] => true
  | t :: ts => rotatesAt s t && allRotate (logStep s t) ts

/-- The state invariant behind the retention cap: the directory holds at
most `maxEntries` regular files and the current log file path names a
directory entry. -/
def goodState (s : LoggerState) : Prop :=
  (regularFiles s.files).length ≤ s.maxEntries ∧
  s.currentLogFile ∈ s.files.map (fun e => e.name)

/-! ### Run invariants for rotation deadlines -/

/-- The rotation deadline is aligned to a bucket boundary (initially `0`,
afterwards a value produced by `calculateNextRotationTime`). -/
def alignedState (s : LoggerState) : Prop :=
  s.nextRotationTime % unitLen s.loggingType = 0

/-! ### `CircularLogger::loadConfig` and `saveDefaultConfig` (lines 51-83) -/

/-- What the attempt to open and parse the configuration file can yield:
the file is missing (`is_open()` false, line 53), the stream fails to
parse or a field has the wrong type (the `catch` at line 66), or a parsed
document in which each of the three fields is present or absent
(`json::value` at lines 62-64). -/
inductive ConfigFile where
  | missing
  | malformed
  | parsed (loggingType : Option String) (frequency : Option Int)
      (maxEntries : Option Int)
deriving Repr, DecidableEq

/-- The member variables `loggingType`, `frequency`, `maxEntries` (header
lines 21-23).  `Option Int` models the C++ `int` members, which the
constructor leaves uninitialized (`none` = indeterminate). -/
structure ConfigState where
  loggingType : String
  frequency : Option Int
  maxEntries : Option Int
deriving Repr, DecidableEq

/-- Member values after `CircularLogger`'s implicit member initialization
and before `loadConfig` runs: `std::string` default-constructs to the
empty string, the `int` members stay indeterminate. -/
def initialMembers : ConfigState := ⟨"", none, none⟩

/-- The document written by `saveDefaultConfig` (lines 75-83). -/
def defaultConfigDoc : ConfigState := ⟨"second", some 5, some 12⟩

/-- Embedding of `loadConfig` (lines 51-70): on a missing file, write the
default document and return with the members untouched; on a parse error,
write the default document, members again untouched; on success take each
field or its per-field default.  The second component records the document
written back to the config path, if any. -/
def loadConfig (file : ConfigFile) : ConfigState × Option ConfigState :=
  match file with
  | .missing => (initialMembers, some defaultConfigDoc)
  | .malformed => (initialMembers, some defaultConfigDoc)
  | .parsed lt f m =>
    (⟨lt.getD "second", some (f.getD 5), some (m.getD 12)⟩, none)

theorem daysInYear_pos (y : Nat) : 0 < daysInYear y := by
  unfold daysInYear; split <;> omega

theorem monthLen_pos (leap : Bool) (m : Nat) : 0 < monthLen leap m := by
  unfold monthLen; split
  · split <;> omega
  · split <;> omega

theorem monthLen_le (leap : Bool) (m : Nat) : monthLen leap m ≤ 31 := by
  unfold monthLen; split
  · split <;> omega
  · split <;> omega

theorem daysUpto_succ (y : Nat) (h : 1970 ≤ y) :
    daysUpto (y + 1) = daysUpto y + daysInYear y := by
  simp only [daysUpto, if_pos h]

theorem splitYearAux_spec (fuel : Nat) : ∀ y d, d < fuel → 1970 ≤ y →
    daysUpto (splitYearAux fuel y d).1 + (splitYearAux fuel y d).2 =
      daysUpto y + d ∧
    (splitYearAux fuel y d).2 < daysInYear (splitYearAux fuel y d).1 ∧
    y ≤ (splitYearAux fuel y d).1 := by
  induction fuel with
  | zero => intro y d h; omega
  | succ fuel ih =>
    intro y d h hy
    by_cases hle : daysInYear y ≤ d
    · have heq : splitYearAux (fuel + 1) y d =
          splitYearAux fuel (y + 1) (d - daysInYear y) := by
        simp only [splitYearAux, if_pos hle]
      have hpos := daysInYear_pos y
      obtain ⟨h1, h2, h3⟩ := ih (y + 1) (d - daysInYear y) (by omega) (by omega)
      rw [heq]
      refine ⟨?_, h2, by omega⟩
      rw [h1, daysUpto_succ y hy]
      omega
    · have heq : splitYearAux (fuel + 1) y d = (y, d) := by
        simp only [splitYearAux, if_neg hle]
      rw [heq]
      exact ⟨rfl, by show d < daysInYear y; omega, Nat.le_refl _⟩

theorem splitYear_spec (y d : Nat) (hy : 1970 ≤ y) :
    daysUpto (splitYear y d).1 + (splitYear y d).2 = daysUpto y + d ∧
    (splitYear y d).2 < daysInYear (splitYear y d).1 ∧ y ≤ (splitYear y d).1 :=
  splitYearAux_spec (d + 1) y d (by omega) hy

theorem monthUpto_succ (leap : Bool) (m : Nat) (h : 1 ≤ m) :
    monthUpto leap (m + 1) = monthUpto leap m + monthLen leap m := by
  simp only [monthUpto, if_pos h]

theorem splitMonthAux_spec (leap : Bool) (fuel : Nat) : ∀ m d,
    1 ≤ m → m ≤ 12 → 12 ≤ m + fuel →
    monthUpto leap (splitMonthAux leap fuel m d).1 +
        (splitMonthAux leap fuel m d).2 = monthUpto leap m + d ∧
    1 ≤ (splitMonthAux leap fuel m d).1 ∧ (splitMonthAux leap fuel m d).1 ≤ 12 ∧
    ((splitMonthAux leap fuel m d).2 <
        monthLen leap (splitMonthAux leap fuel m d).1 ∨
      (splitMonthAux leap fuel m d).1 = 12) := by
  induction fuel with
  | zero =>
    intro m d h1 h2 h3
    refine ⟨rfl, h1, h2, Or.inr ?_⟩
    show m = 12
    omega
  | succ fuel ih =>
    intro m d h1 h2 h3
    by_cases hc : m < 12 ∧ monthLen leap m ≤ d
    · have heq : splitMonthAux leap (fuel + 1) m d =
          splitMonthAux leap fuel (m + 1) (d - monthLen leap m) := by
        simp only [splitMonthAux, if_pos hc]
      obtain ⟨g1, g2, g3, g4⟩ :=
        ih (m + 1) (d - monthLen leap m) (by omega) (by omega) (by omega)
      rw [heq]
      refine ⟨?_, g2, g3, g4⟩
      rw [g1, monthUpto_succ leap m h1]
      omega
    · have heq : splitMonthAux leap (fuel + 1) m d = (m, d) := by
        simp only [splitMonthAux, if_neg hc]
      rw [heq]
      refine ⟨rfl, h1, h2, ?_⟩
      by_cases h12 : m = 12
      · exact Or.inr h12
      · refine Or.inl ?_
        show d < monthLen leap m
        push_neg at hc
        exact hc (by omega)

theorem splitMonth_spec (leap : Bool) (m d : Nat) (hm : 1 ≤ m) (hm2 : m ≤ 12) :
    monthUpto leap (splitMonth leap m d).1 + (splitMonth leap m d).2 =
      monthUpto leap m + d ∧
    1 ≤ (splitMonth leap m d).1 ∧ (splitMonth leap m d).1 ≤ 12 ∧
    ((splitMonth leap m d).2 < monthLen leap (splitMonth leap m d).1 ∨
      (splitMonth leap m d).1 = 12) :=
  splitMonthAux_spec leap 12 m d hm hm2 (by omega)

theorem monthUpto_twelve (leap : Bool) :
    monthUpto leap 12 = if leap then 335 else 334 := by
  cases leap <;> decide

theorem splitMonth_day_lt (leap : Bool) (d : Nat)
    (hd : d < (if leap then 366 else 365)) :
    (splitMonth leap 1 d).2 < monthLen leap (splitMonth leap 1 d).1 := by
  obtain ⟨h1, h2, h3, h4⟩ := splitMonth_spec leap 1 d (by omega) (by omega)
  rcases h4 with h | h
  · exact h
  · rw [h] at h1 ⊢
    rw [monthUpto_twelve] at h1
    have hone : monthUpto leap 1 = 0 := by cases leap <;> decide
    rw [hone] at h1
    have h31 : monthLen leap 12 = 31 := by cases leap <;> decide
    rw [h31]
    cases leap <;> simp at h1 hd <;> omega

theorem daysFromCivil_civilOfDays (d : Nat) :
    daysFromCivil (civilOfDays d).1 (civilOfDays d).2.1 (civilOfDays d).2.2 = d := by
  unfold civilOfDays daysFromCivil
  simp only
  obtain ⟨hy1, hy2, hy3⟩ := splitYear_spec 1970 d (by omega)
  obtain ⟨hm1, hm2, hm3, hm4⟩ :=
    splitMonth_spec (isLeap (splitYear 1970 d).1) 1 (splitYear 1970 d).2
      (by omega) (by omega)
  have hmu : monthUpto (isLeap (splitYear 1970 d).1) 1 = 0 := by
    cases isLeap (splitYear 1970 d).1 <;> decide
  have hdu : daysUpto 1970 = 0 := by decide
  rw [hmu] at hm1
  rw [hdu] at hy1
  omega

theorem civilOfDays_mon_range (d : Nat) :
    1 ≤ (civilOfDays d).2.1 ∧ (civilOfDays d).2.1 ≤ 12 := by
  unfold civilOfDays
  simp only
  obtain ⟨hm1, hm2, hm3, hm4⟩ :=
    splitMonth_spec (isLeap (splitYear 1970 d).1) 1 (splitYear 1970 d).2
      (by omega) (by omega)
  exact ⟨hm2, hm3⟩

theorem civilOfDays_day_range (d : Nat) :
    1 ≤ (civilOfDays d).2.2 ∧ (civilOfDays d).2.2 ≤ 31 := by
  unfold civilOfDays
  simp only
  obtain ⟨hy1, hy2, hy3⟩ := splitYear_spec 1970 d (by omega)
  have hlt : (splitYear 1970 d).2 <
      (if isLeap (splitYear 1970 d).1 then 366 else 365) := by
    have := hy2; unfold daysInYear at this; exact this
  have := splitMonth_day_lt (isLeap (splitYear 1970 d).1) (splitYear 1970 d).2 hlt
  have hle := monthLen_le (isLeap (splitYear 1970 d).1)
      (splitMonth (isLeap (splitYear 1970 d).1) 1 (splitYear 1970 d).2).1
  omega

theorem civilOfDays_year_ge (d : Nat) : 1970 ≤ (civilOfDays d).1 := by
  unfold civilOfDays
  simp only
  exact (splitYear_spec 1970 d (by omega)).2.2

theorem mktime_localtime (t : Nat) : mktime (localtime t) = t := by
  unfold mktime localtime
  simp only
  rw [daysFromCivil_civilOfDays]
  omega

theorem localtime_inj {t1 t2 : Nat} (h : localtime t1 = localtime t2) :
    t1 = t2 := by
  have := mktime_localtime t1
  rw [h, mktime_localtime] at this
  omega

example : localtime 0 = ⟨1970, 1, 1, 0, 0, 0⟩ := by decide

example : localtime 1704164645 = ⟨2024, 1, 2, 3, 4, 5⟩ := by decide

example : localtime 951827696 = ⟨2000, 2, 29, 12, 34, 56⟩ := by decide

theorem digitChar_toNat : ∀ m < 10, (Nat.digitChar m).toNat = 48 + m := by decide

theorem digitChar_isDigit : ∀ m < 10, (Nat.digitChar m).isDigit = true := by decide

theorem foldl_toDigitsCore (fuel : Nat) : ∀ n ds, n < fuel →
    List.foldl decStep 0 (Nat.toDigitsCore 10 fuel n ds) =
      List.foldl decStep n ds := by
  induction fuel with
  | zero => intro n ds h; omega
  | succ fuel ih =>
    intro n ds h
    simp only [Nat.toDigitsCore]
    by_cases hz : n / 10 = 0
    · rw [if_pos hz]
      have hn : n < 10 := by omega
      have hm : n % 10 = n := Nat.mod_eq_of_lt hn
      simp only [List.foldl, decStep, hm, digitChar_toNat n hn]
      have hacc : 0 * 10 + (48 + n - 48) = n := by omega
      rw [hacc]
    · rw [if_neg hz]
      have hge : 10 ≤ n := by omega
      have hlt : n / 10 < fuel := by
        have := Nat.div_lt_self (by omega : 0 < n) (by omega : 1 < 10)
        omega
      rw [ih (n / 10) (Nat.digitChar (n % 10) :: ds) hlt]
      simp only [List.foldl, decStep,
        digitChar_toNat (n % 10) (Nat.mod_lt n (by omega))]
      have : n / 10 * 10 + (48 + n % 10 - 48) = n := by omega
      rw [this]

theorem decNatL_repr (n : Nat) : decNatL (Nat.repr n).data = n := by
  show List.foldl decStep 0 (Nat.toDigits 10 n).asString.data = n
  have : (Nat.toDigits 10 n).asString.data = Nat.toDigits 10 n := rfl
  rw [this]
  unfold Nat.toDigits
  rw [foldl_toDigitsCore (n + 1) n [] (by omega)]
  rfl

theorem repr_inj {a b : Nat} (h : Nat.repr a = Nat.repr b) : a = b := by
  have := decNatL_repr a
  rw [h, decNatL_repr] at this
  omega

theorem decNatL_pad2 (n : Nat) : decNatL (pad2 n).data = n := by
  unfold pad2
  by_cases h : n < 10
  · rw [if_pos h]
    show decNatL (("0" ++ Nat.repr n).data) = n
    rw [String.data_append]
    show List.foldl decStep 0 (Char.ofNat 48 :: (Nat.repr n).data) = n
    simp only [List.foldl, decStep]
    have h0 : (Char.ofNat 48).toNat = 48 := by decide
    rw [h0]
    simpa using decNatL_repr n
  · rw [if_neg h]
    exact decNatL_repr n

theorem toDigitsCore_digits (fuel : Nat) : ∀ n ds,
    (∀ c ∈ ds, c.isDigit = true) →
    ∀ c ∈ Nat.toDigitsCore 10 fuel n ds, c.isDigit = true := by
  induction fuel with
  | zero => intro n ds hds; exact hds
  | succ fuel ih =>
    intro n ds hds
    simp only [Nat.toDigitsCore]
    have hdig : (Nat.digitChar (n % 10)).isDigit = true :=
      digitChar_isDigit (n % 10) (Nat.mod_lt n (by omega))
    by_cases hz : n / 10 = 0
    · rw [if_pos hz]
      intro c hc
      rcases List.mem_cons.mp hc with h | h
      · exact h ▸ hdig
      · exact hds c h
    · rw [if_neg hz]
      refine ih (n / 10) (Nat.digitChar (n % 10) :: ds) ?_
      intro c hc
      rcases List.mem_cons.mp hc with h | h
      · exact h ▸ hdig
      · exact hds c h

theorem repr_digits (n : Nat) : ∀ c ∈ (Nat.repr n).data, c.isDigit = true := by
  show ∀ c ∈ (Nat.toDigits 10 n).asString.data, c.isDigit = true
  have : (Nat.toDigits 10 n).asString.data = Nat.toDigits 10 n := rfl
  rw [this]
  exact toDigitsCore_digits (n + 1) n [] (by intro c hc; cases hc)

theorem pad2_digits (n : Nat) : ∀ c ∈ (pad2 n).data, c.isDigit = true := by
  unfold pad2
  by_cases h : n < 10
  · rw [if_pos h]
    show ∀ c ∈ ("0" ++ Nat.repr n).data, c.isDigit = true
    rw [String.data_append]
    intro c hc
    rcases List.mem_append.mp hc with h2 | h2
    · have : c = Char.ofNat 48 := by
        cases h2 with
        | head => rfl
        | tail _ h3 => cases h3
      rw [this]; decide
    · exact repr_digits n c h2
  · rw [if_neg h]
    exact repr_digits n

/-- Splitting a character list at a non-digit separator: an all-digit prefix
followed by a non-digit character determines the decomposition. -/
theorem digitSegSplit : ∀ (A B xs ys : List Char) (c c2 : Char),
    (∀ a ∈ A, a.isDigit = true) → (∀ b ∈ B, b.isDigit = true) →
    c.isDigit = false → c2.isDigit = false →
    A ++ c :: xs = B ++ c2 :: ys → A = B ∧ c = c2 ∧ xs = ys := by
  intro A
  induction A with
  | nil =>
    intro B xs ys c c2 _ hB hc hc2 heq
    cases B with
    | nil =>
      simp only [List.nil_append] at heq
      exact ⟨rfl, List.cons.inj heq |>.1, List.cons.inj heq |>.2⟩
    | cons b B1 =>
      simp only [List.nil_append, List.cons_append] at heq
      have hcb : c = b := (List.cons.inj heq).1
      have : b.isDigit = true := hB b (List.mem_cons_self b B1)
      rw [← hcb] at this
      rw [this] at hc
      cases hc
  | cons a A1 ih =>
    intro B xs ys c c2 hA hB hc hc2 heq
    cases B with
    | nil =>
      simp only [List.nil_append, List.cons_append] at heq
      have hca : c2 = a := ((List.cons.inj heq).1).symm
      have : a.isDigit = true := hA a (List.mem_cons_self a A1)
      rw [← hca] at this
      rw [this] at hc2
      cases hc2
    | cons b B1 =>
      simp only [List.cons_append] at heq
      have h1 : a = b := (List.cons.inj heq).1
      have h2 := (List.cons.inj heq).2
      obtain ⟨g1, g2, g3⟩ := ih B1 xs ys c c2
        (fun x hx => hA x (List.mem_cons_of_mem a hx))
        (fun x hx => hB x (List.mem_cons_of_mem b hx)) hc hc2 h2
      exact ⟨by rw [h1, g1], g2, g3⟩

/-- A decimal-formatted segment followed by a non-digit separator is
uniquely decodable. -/
theorem numSegSplit (f : Nat → String) (hf : ∀ n, decNatL (f n).data = n)
    (hdig : ∀ n, ∀ c ∈ (f n).data, c.isDigit = true)
    (c : Char) (hc : c.isDigit = false) (n1 n2 : Nat) (s1 s2 : List Char)
    (heq : (f n1).data ++ c :: s1 = (f n2).data ++ c :: s2) :
    n1 = n2 ∧ s1 = s2 := by
  obtain ⟨g1, _, g3⟩ := digitSegSplit (f n1).data (f n2).data s1 s2 c c
    (hdig n1) (hdig n2) hc hc heq
  refine ⟨?_, g3⟩
  have := hf n1
  rw [g1, hf n2] at this
  omega

example :
    generateLogFileName "second" (localtime 1704164645) = "2024-01-02-03-04-05.log" := by
  decide

example :
    generateLogFileName "minute" (localtime 1704164645) = "2024-01-02-03-04.log" := by
  decide

theorem data_dash : ("-" : String).data = ('-' : Char) :: [] := rfl

theorem data_dotlog :
    (".log" : String).data =
      ('.' : Char) :: ('l' : Char) :: ('o' : Char) :: ('g' : Char) :: [] := rfl

theorem shape_hour (tm : Tm) : generateLogFileName "hour" tm =
    dateStamp tm ++ "-" ++ pad2 tm.hour ++ ".log" := by
  unfold generateLogFileName
  rw [if_pos rfl]

theorem shape_minute (tm : Tm) : generateLogFileName "minute" tm =
    dateStamp tm ++ "-" ++ pad2 tm.hour ++ "-" ++ pad2 tm.min ++ ".log" := by
  unfold generateLogFileName
  rw [if_neg (by decide : ¬("minute" : String) = "hour"), if_pos rfl]

theorem shape_second (tm : Tm) : generateLogFileName "second" tm =
    dateStamp tm ++ "-" ++ pad2 tm.hour ++ "-" ++ pad2 tm.min ++ "-" ++
      pad2 tm.sec ++ ".log" := by
  unfold generateLogFileName
  rw [if_neg (by decide : ¬("second" : String) = "hour"),
    if_neg (by decide : ¬("second" : String) = "minute"), if_pos rfl]

theorem shape_other (ty : String) (tm : Tm) (h1 : ty ≠ "hour")
    (h2 : ty ≠ "minute") (h3 : ty ≠ "second") :
    generateLogFileName ty tm = dateStamp tm ++ ".log" := by
  unfold generateLogFileName
  rw [if_neg h1, if_neg h2, if_neg h3]

theorem data_hour (tm : Tm) : (generateLogFileName "hour" tm).data =
    (Nat.repr tm.year).data ++ '-' :: ((pad2 tm.mon).data ++ '-' ::
      ((pad2 tm.mday).data ++ '-' :: ((pad2 tm.hour).data ++ '.' ::
        ('l' :: 'o' :: 'g' :: [])))) := by
  rw [shape_hour]
  unfold dateStamp
  simp only [String.data_append, data_dash, data_dotlog, List.append_assoc,
    List.cons_append, List.nil_append]

theorem data_minute (tm : Tm) : (generateLogFileName "minute" tm).data =
    (Nat.repr tm.year).data ++ '-' :: ((pad2 tm.mon).data ++ '-' ::
      ((pad2 tm.mday).data ++ '-' :: ((pad2 tm.hour).data ++ '-' ::
        ((pad2 tm.min).data ++ '.' :: ('l' :: 'o' :: 'g' :: []))))) := by
  rw [shape_minute]
  unfold dateStamp
  simp only [String.data_append, data_dash, data_dotlog, List.append_assoc,
    List.cons_append, List.nil_append]

theorem data_second (tm : Tm) : (generateLogFileName "second" tm).data =
    (Nat.repr tm.year).data ++ '-' :: ((pad2 tm.mon).data ++ '-' ::
      ((pad2 tm.mday).data ++ '-' :: ((pad2 tm.hour).data ++ '-' ::
        ((pad2 tm.min).data ++ '-' :: ((pad2 tm.sec).data ++ '.' ::
          ('l' :: 'o' :: 'g' :: [])))))) := by
  rw [shape_second]
  unfold dateStamp
  simp only [String.data_append, data_dash, data_dotlog, List.append_assoc,
    List.cons_append, List.nil_append]

theorem dash_not_digit : ('-' : Char).isDigit = false := rfl

theorem dot_not_digit : ('.' : Char).isDigit = false := rfl

theorem generateLogFileName_inj_hour (t1 t2 : Tm)
    (h : generateLogFileName "hour" t1 = generateLogFileName "hour" t2) :
    t1.year = t2.year ∧ t1.mon = t2.mon ∧ t1.mday = t2.mday ∧
    t1.hour = t2.hour := by
  have hd := congrArg String.data h
  rw [data_hour t1, data_hour t2] at hd
  obtain ⟨e1, hd⟩ := numSegSplit Nat.repr decNatL_repr repr_digits
    ('-' : Char) dash_not_digit _ _ _ _ hd
  obtain ⟨e2, hd⟩ := numSegSplit pad2 decNatL_pad2 pad2_digits
    ('-' : Char) dash_not_digit _ _ _ _ hd
  obtain ⟨e3, hd⟩ := numSegSplit pad2 decNatL_pad2 pad2_digits
    ('-' : Char) dash_not_digit _ _ _ _ hd
  obtain ⟨e4, _⟩ := numSegSplit pad2 decNatL_pad2 pad2_digits
    ('.' : Char) dot_not_digit _ _ _ _ hd
  exact ⟨e1, e2, e3, e4⟩

theorem generateLogFileName_inj_minute (t1 t2 : Tm)
    (h : generateLogFileName "minute" t1 = generateLogFileName "minute" t2) :
    t1.year = t2.year ∧ t1.mon = t2.mon ∧ t1.mday = t2.mday ∧
    t1.hour = t2.hour ∧ t1.min = t2.min := by
  have hd := congrArg String.data h
  rw [data_minute t1, data_minute t2] at hd
  obtain ⟨e1, hd⟩ := numSegSplit Nat.repr decNatL_repr repr_digits
    ('-' : Char) dash_not_digit _ _ _ _ hd
  obtain ⟨e2, hd⟩ := numSegSplit pad2 decNatL_pad2 pad2_digits
    ('-' : Char) dash_not_digit _ _ _ _ hd
  obtain ⟨e3, hd⟩ := numSegSplit pad2 decNatL_pad2 pad2_digits
    ('-' : Char) dash_not_digit _ _ _ _ hd
  obtain ⟨e4, hd⟩ := numSegSplit pad2 decNatL_pad2 pad2_digits
    ('-' : Char) dash_not_digit _ _ _ _ hd
  obtain ⟨e5, _⟩ := numSegSplit pad2 decNatL_pad2 pad2_digits
    ('.' : Char) dot_not_digit _ _ _ _ hd
  exact ⟨e1, e2, e3, e4, e5⟩

theorem generateLogFileName_inj_second (t1 t2 : Tm)
    (h : generateLogFileName "second" t1 = generateLogFileName "second" t2) :
    t1.year = t2.year ∧ t1.mon = t2.mon ∧ t1.mday = t2.mday ∧
    t1.hour = t2.hour ∧ t1.min = t2.min ∧ t1.sec = t2.sec := by
  have hd := congrArg String.data h
  rw [data_second t1, data_second t2] at hd
  obtain ⟨e1, hd⟩ := numSegSplit Nat.repr decNatL_repr repr_digits
    ('-' : Char) dash_not_digit _ _ _ _ hd
  obtain ⟨e2, hd⟩ := numSegSplit pad2 decNatL_pad2 pad2_digits
    ('-' : Char) dash_not_digit _ _ _ _ hd
  obtain ⟨e3, hd⟩ := numSegSplit pad2 decNatL_pad2 pad2_digits
    ('-' : Char) dash_not_digit _ _ _ _ hd
  obtain ⟨e4, hd⟩ := numSegSplit pad2 decNatL_pad2 pad2_digits
    ('-' : Char) dash_not_digit _ _ _ _ hd
  obtain ⟨e5, hd⟩ := numSegSplit pad2 decNatL_pad2 pad2_digits
    ('-' : Char) dash_not_digit _ _ _ _ hd
  obtain ⟨e6, _⟩ := numSegSplit pad2 decNatL_pad2 pad2_digits
    ('.' : Char) dot_not_digit _ _ _ _ hd
  exact ⟨e1, e2, e3, e4, e5, e6⟩

/-! ### Bucket keys of timestamps

The file name computed from a timestamp is the bucket key.  The next three
theorems characterize key equality: two timestamps share a bucket key iff
they lie in the same calendar second / minute / hour. -/

theorem localtime_hour_lt (t : Nat) : (localtime t).hour < 24 := by
  unfold localtime; simp only; omega

theorem localtime_min_lt (t : Nat) : (localtime t).min < 60 := by
  unfold localtime; simp only; omega

theorem localtime_sec_lt (t : Nat) : (localtime t).sec < 60 := by
  unfold localtime; simp only; omega

theorem mktime_expand (t : Nat) : t =
    daysFromCivil (localtime t).year (localtime t).mon (localtime t).mday * 86400 +
      (localtime t).hour * 3600 + (localtime t).min * 60 + (localtime t).sec := by
  conv_lhs => rw [← mktime_localtime t]
  rfl

theorem key_second_iff (t1 t2 : Nat) :
    generateLogFileName "second" (localtime t1) =
      generateLogFileName "second" (localtime t2) ↔ t1 = t2 := by
  constructor
  · intro h
    obtain ⟨e1, e2, e3, e4, e5, e6⟩ := generateLogFileName_inj_second _ _ h
    have h1 := mktime_expand t1
    have h2 := mktime_expand t2
    rw [e1, e2, e3, e4, e5, e6] at h1
    omega
  · intro h; rw [h]

theorem localtime_days (t : Nat) :
    (localtime t).year = (civilOfDays (t / 86400)).1 ∧
    (localtime t).mon = (civilOfDays (t / 86400)).2.1 ∧
    (localtime t).mday = (civilOfDays (t / 86400)).2.2 := by
  unfold localtime; exact ⟨rfl, rfl, rfl⟩

theorem key_minute_iff (t1 t2 : Nat) :
    generateLogFileName "minute" (localtime t1) =
      generateLogFileName "minute" (localtime t2) ↔ t1 / 60 = t2 / 60 := by
  constructor
  · intro h
    obtain ⟨e1, e2, e3, e4, e5⟩ := generateLogFileName_inj_minute _ _ h
    have h1 := mktime_expand t1
    have h2 := mktime_expand t2
    rw [e1, e2, e3, e4, e5] at h1
    have s1 := localtime_sec_lt t1
    have s2 := localtime_sec_lt t2
    omega
  · intro h
    have hdays : t1 / 86400 = t2 / 86400 := by omega
    have hy : (localtime t1).year = (localtime t2).year := by
      rw [(localtime_days t1).1, (localtime_days t2).1, hdays]
    have hmo : (localtime t1).mon = (localtime t2).mon := by
      rw [(localtime_days t1).2.1, (localtime_days t2).2.1, hdays]
    have hmd : (localtime t1).mday = (localtime t2).mday := by
      rw [(localtime_days t1).2.2, (localtime_days t2).2.2, hdays]
    have hh : (localtime t1).hour = (localtime t2).hour := by
      show t1 % 86400 / 3600 = t2 % 86400 / 3600
      omega
    have hmi : (localtime t1).min = (localtime t2).min := by
      show t1 % 86400 % 3600 / 60 = t2 % 86400 % 3600 / 60
      omega
    rw [shape_minute, shape_minute]
    unfold dateStamp
    rw [hy, hmo, hmd, hh, hmi]

theorem key_hour_iff (t1 t2 : Nat) :
    generateLogFileName "hour" (localtime t1) =
      generateLogFileName "hour" (localtime t2) ↔ t1 / 3600 = t2 / 3600 := by
  constructor
  · intro h
    obtain ⟨e1, e2, e3, e4⟩ := generateLogFileName_inj_hour _ _ h
    have h1 := mktime_expand t1
    have h2 := mktime_expand t2
    rw [e1, e2, e3, e4] at h1
    have s1 := localtime_sec_lt t1
    have s2 := localtime_sec_lt t2
    have m1 := localtime_min_lt t1
    have m2 := localtime_min_lt t2
    omega
  · intro h
    have hdays : t1 / 86400 = t2 / 86400 := by omega
    have hy : (localtime t1).year = (localtime t2).year := by
      rw [(localtime_days t1).1, (localtime_days t2).1, hdays]
    have hmo : (localtime t1).mon = (localtime t2).mon := by
      rw [(localtime_days t1).2.1, (localtime_days t2).2.1, hdays]
    have hmd : (localtime t1).mday = (localtime t2).mday := by
      rw [(localtime_days t1).2.2, (localtime_days t2).2.2, hdays]
    have hh : (localtime t1).hour = (localtime t2).hour := by
      show t1 % 86400 / 3600 = t2 % 86400 / 3600
      omega
    rw [shape_hour, shape_hour]
    unfold dateStamp
    rw [hy, hmo, hmd, hh]

theorem calc_second (f t : Nat) :
    calculateNextRotationTime "second" f t = t + f := by
  unfold calculateNextRotationTime
  rw [if_neg (by decide : ¬("second" : String) = "hour"),
    if_neg (by decide : ¬("second" : String) = "minute"), if_pos rfl]
  show daysFromCivil (localtime t).year (localtime t).mon (localtime t).mday *
      86400 + (localtime t).hour * 3600 + (localtime t).min * 60 +
      ((localtime t).sec + f) = t + f
  have h := mktime_expand t
  omega

theorem calc_minute (f t : Nat) :
    calculateNextRotationTime "minute" f t = t - t % 60 + 60 * f := by
  unfold calculateNextRotationTime
  rw [if_neg (by decide : ¬("minute" : String) = "hour"), if_pos rfl]
  show daysFromCivil (localtime t).year (localtime t).mon (localtime t).mday *
      86400 + (localtime t).hour * 3600 + ((localtime t).min + f) * 60 + 0 =
      t - t % 60 + 60 * f
  have h := mktime_expand t
  have hs : (localtime t).sec = t % 60 := by
    show t % 86400 % 3600 % 60 = t % 60
    omega
  omega

theorem calc_hour (f t : Nat) :
    calculateNextRotationTime "hour" f t = t - t % 3600 + 3600 * f := by
  unfold calculateNextRotationTime
  rw [if_pos rfl]
  show daysFromCivil (localtime t).year (localtime t).mon (localtime t).mday *
      86400 + ((localtime t).hour + f) * 3600 + 0 * 60 + 0 =
      t - t % 3600 + 3600 * f
  have h := mktime_expand t
  have hs : (localtime t).sec = t % 86400 % 3600 % 60 := rfl
  have hm : (localtime t).min = t % 86400 % 3600 / 60 := rfl
  omega

theorem calc_other (ty : String) (f t : Nat) (h1 : ty ≠ "hour")
    (h2 : ty ≠ "minute") (h3 : ty ≠ "second") :
    calculateNextRotationTime ty f t = t := by
  unfold calculateNextRotationTime
  rw [if_neg h1, if_neg h2, if_neg h3, mktime_localtime]

theorem unitLen_pos (ty : String) : 0 < unitLen ty := by
  unfold unitLen; split
  · omega
  · split <;> omega

/-- Uniform characterization: for a recognized granularity the next
rotation time is the start of the bucket `frequency` units after the
current one. -/
theorem calc_eq_unit (ty : String)
    (hty : ty = "hour" ∨ ty = "minute" ∨ ty = "second") (f t : Nat) :
    calculateNextRotationTime ty f t = (t / unitLen ty + f) * unitLen ty := by
  rcases hty with h | h | h <;> subst h
  · rw [calc_hour]
    show _ = (t / 3600 + f) * 3600
    omega
  · rw [calc_minute]
    show _ = (t / 60 + f) * 60
    omega
  · rw [calc_second]
    show _ = (t / 1 + f) * 1
    omega

/-- Key equality coincides with equality of the bucket index
`t / unitLen ty` for every recognized granularity. -/
theorem key_iff_unit (ty : String)
    (hty : ty = "hour" ∨ ty = "minute" ∨ ty = "second") (t1 t2 : Nat) :
    (generateLogFileName ty (localtime t1) =
      generateLogFileName ty (localtime t2)) ↔
      t1 / unitLen ty = t2 / unitLen ty := by
  rcases hty with h | h | h <;> subst h
  · show _ ↔ t1 / 3600 = t2 / 3600
    exact key_hour_iff t1 t2
  · show _ ↔ t1 / 60 = t2 / 60
    exact key_minute_iff t1 t2
  · rw [key_second_iff]
    show t1 = t2 ↔ t1 / 1 = t2 / 1
    omega

theorem sweepLoop_eq_drop (m : Nat) (l : List DirEntry) :
    sweepLoop m l = l.drop (l.length + 1 - m) := by
  induction l with
  | nil => simp [sweepLoop]
  | cons f rest ih =>
    unfold sweepLoop
    by_cases h : m ≤ (f :: rest).length
    · rw [if_pos h, ih]
      have hlen : (f :: rest).length = rest.length + 1 := rfl
      have : (f :: rest).length + 1 - m = (rest.length + 1 - m) + 1 := by
        rw [hlen]
        omega
      rw [this]
      rfl
    · rw [if_neg h]
      have hlen : (f :: rest).length = rest.length + 1 := rfl
      have : (f :: rest).length + 1 - m = 0 := by
        rw [hlen]; rw [hlen] at h; omega
      rw [this]
      rfl

theorem sweepLoop_length_lt (m : Nat) (hm : 1 ≤ m) (l : List DirEntry) :
    (sweepLoop m l).length < m := by
  rw [sweepLoop_eq_drop, List.length_drop]
  omega

theorem sweepLoop_subset (m : Nat) (l : List DirEntry) : sweepLoop m l ⊆ l := by
  rw [sweepLoop_eq_drop]
  exact List.drop_subset _ l

theorem sortByMtime_perm (l : List DirEntry) : List.Perm (sortByMtime l) l :=
  List.perm_insertionSort _ l

theorem mem_regularFiles {e : DirEntry} {entries : List DirEntry} :
    e ∈ regularFiles entries ↔ e ∈ entries ∧ e.isRegularFile = true := by
  unfold regularFiles
  rw [List.mem_filter]

/-- The regular files surviving a sweep are exactly the survivors of the
removal loop. -/
theorem regularFiles_rotateLogs (entries : List DirEntry) (m : Nat) :
    regularFiles (rotateLogs entries m) =
      sweepLoop m (sortByMtime (regularFiles entries)) := by
  unfold rotateLogs regularFiles
  rw [List.filter_append]
  have h1 : List.filter (fun e => e.isRegularFile)
      (List.filter (fun e => !e.isRegularFile) entries) = [] := by
    rw [List.filter_filter]
    apply List.filter_eq_nil_iff.mpr
    intro e _
    cases h : e.isRegularFile <;> simp [h]
  have h2 : List.filter (fun e => e.isRegularFile)
      (sweepLoop m (sortByMtime (List.filter (fun e => e.isRegularFile) entries))) =
      sweepLoop m (sortByMtime (List.filter (fun e => e.isRegularFile) entries)) := by
    apply List.filter_eq_self.mpr
    intro e he
    have hmem := sweepLoop_subset m _ he
    have := (sortByMtime_perm _).mem_iff.mp hmem
    exact (List.mem_filter.mp this).2
  rw [h1, h2, List.nil_append]

theorem rotateLogs_count (entries : List DirEntry) (m : Nat) (hm : 1 ≤ m) :
    (regularFiles (rotateLogs entries m)).length < m := by
  rw [regularFiles_rotateLogs]
  exact sweepLoop_length_lt m hm _

theorem logStep_policy (s : LoggerState) (now : Nat) :
    (logStep s now).loggingType = s.loggingType ∧
    (logStep s now).frequency = s.frequency ∧
    (logStep s now).maxEntries = s.maxEntries := by
  unfold logStep
  split <;> exact ⟨rfl, rfl, rfl⟩

theorem runLog_cons (s : LoggerState) (t : Nat) (ts : List Nat) :
    runLog s (t :: ts) = runLog (logStep s t) ts := rfl

theorem runLog_policy (ts : List Nat) : ∀ s : LoggerState,
    (runLog s ts).loggingType = s.loggingType ∧
    (runLog s ts).frequency = s.frequency ∧
    (runLog s ts).maxEntries = s.maxEntries := by
  induction ts with
  | nil => intro s; exact ⟨rfl, rfl, rfl⟩
  | cons t ts ih =>
    intro s
    rw [runLog_cons]
    obtain ⟨a, b, c⟩ := ih (logStep s t)
    obtain ⟨d, e, f⟩ := logStep_policy s t
    exact ⟨a.trans d, b.trans e, c.trans f⟩

theorem runLog_append (s : LoggerState) (a b : List Nat) :
    runLog s (a ++ b) = runLog (runLog s a) b := by
  unfold runLog
  exact List.foldl_append _ _ a b

/-! ### Run invariants for the file-count cap -/

theorem length_filter_of_flag_eq {g : DirEntry → DirEntry}
    (hg : ∀ e, (g e).isRegularFile = e.isRegularFile) (l : List DirEntry) :
    (List.filter (fun e => e.isRegularFile) (l.map g)).length =
      (List.filter (fun e => e.isRegularFile) l).length := by
  induction l with
  | nil => rfl
  | cons e l ih =>
    show (List.filter _ (g e :: l.map g)).length = _
    rw [List.filter_cons, List.filter_cons, hg e]
    cases h : e.isRegularFile <;> simp [ih]

theorem writeAppend_count_le (entries : List DirEntry) (path : String)
    (now : Nat) :
    (regularFiles (writeAppend entries path now)).length ≤
      (regularFiles entries).length + 1 := by
  unfold writeAppend
  split
  · unfold regularFiles
    rw [length_filter_of_flag_eq]
    · omega
    · intro e
      split <;> rfl
  · unfold regularFiles
    rw [List.filter_append]
    simp

theorem writeAppend_names (entries : List DirEntry) (path : String) (now : Nat) :
    (writeAppend entries path now).map (fun e => e.name) =
      entries.map (fun e => e.name) ∨
    (writeAppend entries path now).map (fun e => e.name) =
      entries.map (fun e => e.name) ++ [path] := by
  unfold writeAppend
  split
  · left
    rw [List.map_map]
    congr 1
    funext e
    show (if e.name = path ∧ e.isRegularFile = true then
      ({ e with mtime := now } : DirEntry) else e).name = e.name
    split <;> rfl
  · right
    rw [List.map_append]
    rfl

theorem writeAppend_mem_name (entries : List DirEntry) (path : String)
    (now : Nat) :
    path ∈ (writeAppend entries path now).map (fun e => e.name) := by
  unfold writeAppend
  split
  · rename_i h
    obtain ⟨e, he, hname⟩ := List.any_eq_true.mp h
    have hname2 : e.name = path := of_decide_eq_true hname
    rw [List.map_map]
    have : ((fun e => e.name) ∘ fun e =>
        if e.name = path ∧ e.isRegularFile = true then
          ({ e with mtime := now } : DirEntry) else e) = fun e => e.name := by
      funext x
      show (if x.name = path ∧ x.isRegularFile = true then
        ({ x with mtime := now } : DirEntry) else x).name = x.name
      split <;> rfl
    rw [this]
    rw [← hname2]
    exact List.mem_map_of_mem _ he
  · rw [List.map_append]
    apply List.mem_append_right
    exact List.mem_singleton.mpr rfl

theorem writeAppend_count_mem (entries : List DirEntry) (path : String)
    (now : Nat) (h : path ∈ entries.map (fun e => e.name)) :
    (regularFiles (writeAppend entries path now)).length =
      (regularFiles entries).length := by
  unfold writeAppend
  have hany : entries.any (fun e => e.name = path) = true := by
    rw [List.any_eq_true]
    obtain ⟨e, he, hname⟩ := List.mem_map.mp h
    exact ⟨e, he, decide_eq_true hname⟩
  rw [if_pos hany]
  unfold regularFiles
  apply length_filter_of_flag_eq
  intro e
  split <;> rfl

theorem logStep_good (s : LoggerState) (now : Nat) (hm : 1 ≤ s.maxEntries)
    (h : goodState s ∨ s.nextRotationTime ≤ now) :
    goodState (logStep s now) := by
  unfold logStep
  by_cases hrot : s.nextRotationTime ≤ now
  · rw [if_pos hrot]
    constructor
    · show (regularFiles (writeAppend (rotateLogs s.files s.maxEntries)
        (logFilePath s.loggingType now) now)).length ≤ s.maxEntries
      have h1 := rotateLogs_count s.files s.maxEntries hm
      have h2 := writeAppend_count_le (rotateLogs s.files s.maxEntries)
        (logFilePath s.loggingType now) now
      omega
    · exact writeAppend_mem_name _ _ _
  · rw [if_neg hrot]
    rcases h with hg | hr
    · refine ⟨?_, ?_⟩
      · show (regularFiles (writeAppend s.files s.currentLogFile now)).length ≤
          s.maxEntries
        rw [writeAppend_count_mem s.files s.currentLogFile now hg.2]
        exact hg.1
      · show s.currentLogFile ∈ _
        exact writeAppend_mem_name _ _ _
    · exact absurd hr hrot

theorem runLog_good (ts : List Nat) : ∀ s : LoggerState, 1 ≤ s.maxEntries →
    goodState s → goodState (runLog s ts) := by
  induction ts with
  | nil => intro s _ h; exact h
  | cons t ts ih =>
    intro s hm h
    rw [runLog_cons]
    refine ih (logStep s t) ?_ ?_
    · rw [(logStep_policy s t).2.2]; exact hm
    · exact logStep_good s t hm (Or.inl h)

theorem logStep_aligned (s : LoggerState) (now : Nat)
    (hty : s.loggingType = "hour" ∨ s.loggingType = "minute" ∨
      s.loggingType = "second")
    (h : alignedState s) : alignedState (logStep s now) := by
  unfold logStep
  by_cases hrot : s.nextRotationTime ≤ now
  · rw [if_pos hrot]
    show calculateNextRotationTime s.loggingType s.frequency now %
      unitLen s.loggingType = 0
    rw [calc_eq_unit s.loggingType hty s.frequency now]
    exact Nat.mul_mod_left _ _
  · rw [if_neg hrot]
    exact h

theorem lt_div_succ_mul (n u : Nat) (hu : 0 < u) : n < (n / u + 1) * u := by
  have hmod := Nat.div_add_mod n u
  have hr : n % u < u := Nat.mod_lt _ hu
  have h1 : (n / u + 1) * u = u * (n / u) + u := by ring
  omega

/-- After any call at time `now` (valid granularity, positive frequency)
the deadline lies strictly in the future. -/
theorem logStep_deadline_future (s : LoggerState) (now : Nat)
    (hty : s.loggingType = "hour" ∨ s.loggingType = "minute" ∨
      s.loggingType = "second")
    (hf : 1 ≤ s.frequency) :
    now < (logStep s now).nextRotationTime := by
  unfold logStep
  by_cases hrot : s.nextRotationTime ≤ now
  · rw [if_pos hrot]
    show now < calculateNextRotationTime s.loggingType s.frequency now
    rw [calc_eq_unit s.loggingType hty s.frequency now]
    have hu := unitLen_pos s.loggingType
    calc now < (now / unitLen s.loggingType + 1) * unitLen s.loggingType :=
      lt_div_succ_mul now _ hu
    _ ≤ (now / unitLen s.loggingType + s.frequency) * unitLen s.loggingType := by
        apply Nat.mul_le_mul_right
        omega
  · rw [if_neg hrot]
    show now < s.nextRotationTime
    omega

/-- A call in the same bucket as an earlier time `t1` that the deadline
already strictly exceeds does not rotate. -/
theorem rotatesAt_false_same_unit (s : LoggerState) (t1 τ : Nat)
    (hal : alignedState s) (hpast : t1 < s.nextRotationTime)
    (hunit : t1 / unitLen s.loggingType = τ / unitLen s.loggingType) :
    rotatesAt s τ = false := by
  unfold rotatesAt
  apply decide_eq_false
  intro hle
  have hu := unitLen_pos s.loggingType
  unfold alignedState at hal
  have hd : s.nextRotationTime =
      unitLen s.loggingType * (s.nextRotationTime / unitLen s.loggingType) := by
    have := Nat.div_add_mod s.nextRotationTime (unitLen s.loggingType)
    omega
  have ht1 := (Nat.div_add_mod t1 (unitLen s.loggingType)).symm
  have hτe := (Nat.div_add_mod τ (unitLen s.loggingType)).symm
  have hτm : τ % unitLen s.loggingType < unitLen s.loggingType :=
    Nat.mod_lt _ hu
  have hq : t1 / unitLen s.loggingType <
      s.nextRotationTime / unitLen s.loggingType := by
    by_contra hcon
    push_neg at hcon
    have := Nat.mul_le_mul_left (unitLen s.loggingType) hcon
    omega
  have h2 : unitLen s.loggingType * (t1 / unitLen s.loggingType + 1) ≤
      unitLen s.loggingType * (s.nextRotationTime / unitLen s.loggingType) :=
    Nat.mul_le_mul_left _ hq
  have h3 : unitLen s.loggingType * (t1 / unitLen s.loggingType + 1) =
      unitLen s.loggingType * (t1 / unitLen s.loggingType) +
        unitLen s.loggingType := by ring
  rw [← hunit] at hτe
  omega

/-- A run whose calls all lie in the bucket of `t1` (with the deadline
already beyond `t1`) rotates at none of them: the current file and the
deadline survive unchanged. -/
theorem runLog_same_unit (mid : List Nat) : ∀ s : LoggerState, ∀ t1 : Nat,
    alignedState s → t1 < s.nextRotationTime →
    (∀ τ ∈ mid, t1 / unitLen s.loggingType = τ / unitLen s.loggingType) →
    (runLog s mid).currentLogFile = s.currentLogFile ∧
    (runLog s mid).nextRotationTime = s.nextRotationTime ∧
    (runLog s mid).loggingType = s.loggingType := by
  induction mid with
  | nil => intro s t1 _ _ _; exact ⟨rfl, rfl, rfl⟩
  | cons τ mid ih =>
    intro s t1 hal hpast hmem
    have hno : rotatesAt s τ = false :=
      rotatesAt_false_same_unit s t1 τ hal hpast
        (hmem τ (List.mem_cons_self τ mid))
    have hcond : ¬(s.nextRotationTime ≤ τ) := by
      unfold rotatesAt at hno
      exact of_decide_eq_false hno
    have hstep : logStep s τ =
        { s with files := writeAppend s.files s.currentLogFile τ } := by
      unfold logStep
      rw [if_neg hcond]
    rw [runLog_cons, hstep]
    exact ih _ t1 hal hpast (fun x hx => hmem x (List.mem_cons_of_mem τ hx))

/-! ### Runs with an unrecognized granularity (for C10) -/

theorem allRotate_other (ty : String) (h1 : ty ≠ "hour") (h2 : ty ≠ "minute")
    (h3 : ty ≠ "second") (ts : List Nat) : ∀ s : LoggerState,
    s.loggingType = ty → List.Pairwise (· ≤ ·) ts →
    (∀ τ ∈ ts, s.nextRotationTime ≤ τ) →
    allRotate s ts = true := by
  induction ts with
  | nil => intro s _ _ _; rfl
  | cons t ts ih =>
    intro s hsty hpw hge
    show (rotatesAt s t && allRotate (logStep s t) ts) = true
    rw [Bool.and_eq_true]
    have hrot : s.nextRotationTime ≤ t := hge t (List.mem_cons_self t ts)
    constructor
    · exact decide_eq_true hrot
    · refine ih (logStep s t) ?_ (List.Pairwise.sublist
        (List.sublist_cons_self t ts) hpw) ?_
      · rw [(logStep_policy s t).1]; exact hsty
      · intro τ hτ
        have hstep : (logStep s t).nextRotationTime = t := by
          unfold logStep
          rw [if_pos hrot]
          show calculateNextRotationTime s.loggingType s.frequency t = t
          rw [hsty]
          exact calc_other ty s.frequency t h1 h2 h3
        rw [hstep]
        exact (List.pairwise_cons.mp hpw).1 τ hτ

theorem runLog_aligned (ts : List Nat) : ∀ s : LoggerState,
    (s.loggingType = "hour" ∨ s.loggingType = "minute" ∨
      s.loggingType = "second") →
    alignedState s → alignedState (runLog s ts) := by
  induction ts with
  | nil => intro s _ h; exact h
  | cons t ts ih =>
    intro s hty h
    rw [runLog_cons]
    refine ih _ ?_ (logStep_aligned s t hty h)
    rw [(logStep_policy s t).1]
    exact hty

theorem pad2_length (n : Nat) (h : n < 100) : (pad2 n).length = 2 := by
  have hall : ∀ m < 100, (pad2 m).length = 2 := by decide
  exact hall n h

/-! ## The claims -/

/-- **C1**, counterexample.  Policy `second`/frequency 5, fresh logger,
consecutive calls at 100 and 101: the two timestamps have different bucket
keys, yet the second call does not reach the deadline (101 < 105), so no
rotation and no sweep occurs between the calls — the claimed "exactly one
rotation" is violated. -/
theorem C1_counterexample :
    generateLogFileName "second" (localtime 100) ≠
      generateLogFileName "second" (localtime 101) ∧
    rotatesAt (logStep (initLogger "second" 5 12 []) 100) 101 = false := by
  decide

/-- **C1** (amended).  Rotation is governed by the numeric deadline, not by
comparing bucket keys: a fresh logger rotates on its first call at any `t`;
that call sets `nextRotationTime` to the start of the bucket `frequency`
units after `t`; and whether any following call rotates is exactly the
comparison of its timestamp with that deadline (the bucket key of the call
plays no part). -/
theorem C1_deadline_rotation (ty : String)
    (hty : ty = "hour" ∨ ty = "minute" ∨ ty = "second") (f m : Nat)
    (hf : 1 ≤ f) (files : List DirEntry) (t : Nat) :
    rotatesAt (initLogger ty f m files) t = true ∧
    (logStep (initLogger ty f m files) t).nextRotationTime =
      (t / unitLen ty + f) * unitLen ty ∧
    ∀ t2 : Nat, rotatesAt (logStep (initLogger ty f m files) t) t2 =
      decide ((t / unitLen ty + f) * unitLen ty ≤ t2) := by
  have hrot0 : (initLogger ty f m files).nextRotationTime ≤ t := Nat.zero_le t
  have hdl : (logStep (initLogger ty f m files) t).nextRotationTime =
      (t / unitLen ty + f) * unitLen ty := by
    unfold logStep
    rw [if_pos hrot0]
    show calculateNextRotationTime ty f t = _
    exact calc_eq_unit ty hty f t
  refine ⟨decide_eq_true hrot0, hdl, fun t2 => ?_⟩
  unfold rotatesAt
  rw [hdl]

/-- **C3** (code bug).  With the config file absent, `loadConfig` writes
the default document to disk but returns without assigning the members:
in memory `loggingType` stays `""` (not `"second"`) and the `int` members
stay indeterminate, contradicting the documented "default values are
used".  A parse failure behaves the same.  Per-field defaulting does work
when the document parses. -/
theorem C3_config_members :
    (loadConfig ConfigFile.missing).2 = some defaultConfigDoc ∧
    (loadConfig ConfigFile.missing).1 = initialMembers ∧
    (loadConfig ConfigFile.missing).1.loggingType ≠ "second" ∧
    (loadConfig ConfigFile.malformed).2 = some defaultConfigDoc ∧
    (loadConfig ConfigFile.malformed).1 ≠ defaultConfigDoc ∧
    (loadConfig (ConfigFile.parsed none (some 7) none)).1 =
      ⟨"second", some 7, some 12⟩ := by
  decide

/-- **C4**, counterexample.  At 2024-01-02 03:04:05, the `minute` file
name contains the hour (`2024-01-02-03-04.log`), not the claimed
date-plus-minute-only form. -/
theorem C4_counterexample :
    generateLogFileName "minute" (localtime 1704164645) =
      "2024-01-02-03-04.log" ∧
    generateLogFileName "minute" (localtime 1704164645) ≠
      dateStamp (localtime 1704164645) ++ "-" ++
        pad2 (localtime 1704164645).min ++ ".log" := by
  decide

/-- **C4** (amended).  Every generated name starts with the calendar date
and ends in `.log`; the suffix is the 2-digit hour for `hour`, hour plus
minute for `minute`, and hour plus minute plus second for `second` (the
hour is always included), each component 2-digit zero-padded. -/
theorem C4_filename_format (t : Nat) :
    (∀ ty : String, ∃ rest : List Char,
      (generateLogFileName ty (localtime t)).data =
        (dateStamp (localtime t)).data ++ rest) ∧
    (∀ ty : String, ∃ pre : List Char,
      (generateLogFileName ty (localtime t)).data =
        pre ++ (".log" : String).data) ∧
    generateLogFileName "hour" (localtime t) =
      dateStamp (localtime t) ++ "-" ++ pad2 (localtime t).hour ++ ".log" ∧
    generateLogFileName "minute" (localtime t) =
      dateStamp (localtime t) ++ "-" ++ pad2 (localtime t).hour ++ "-" ++
        pad2 (localtime t).min ++ ".log" ∧
    generateLogFileName "second" (localtime t) =
      dateStamp (localtime t) ++ "-" ++ pad2 (localtime t).hour ++ "-" ++
        pad2 (localtime t).min ++ "-" ++ pad2 (localtime t).sec ++ ".log" ∧
    (pad2 (localtime t).hour).length = 2 ∧
    (pad2 (localtime t).min).length = 2 ∧
    (pad2 (localtime t).sec).length = 2 := by
  have hdate : ∀ ty : String, ∃ rest : List Char,
      (generateLogFileName ty (localtime t)).data =
        (dateStamp (localtime t)).data ++ rest := by
    intro ty
    by_cases e1 : ty = "hour"
    · subst e1
      refine ⟨(("-" ++ pad2 (localtime t).hour ++ ".log") : String).data, ?_⟩
      rw [shape_hour]
      simp [String.data_append, List.append_assoc]
    · by_cases e2 : ty = "minute"
      · subst e2
        refine ⟨(("-" ++ pad2 (localtime t).hour ++ "-" ++
          pad2 (localtime t).min ++ ".log") : String).data, ?_⟩
        rw [shape_minute]
        simp [String.data_append, List.append_assoc]
      · by_cases e3 : ty = "second"
        · subst e3
          refine ⟨(("-" ++ pad2 (localtime t).hour ++ "-" ++
            pad2 (localtime t).min ++ "-" ++ pad2 (localtime t).sec ++
            ".log") : String).data, ?_⟩
          rw [shape_second]
          simp [String.data_append, List.append_assoc]
        · refine ⟨((".log" : String)).data, ?_⟩
          rw [shape_other ty _ e1 e2 e3, String.data_append]
  have hext : ∀ ty : String, ∃ pre : List Char,
      (generateLogFileName ty (localtime t)).data =
        pre ++ (".log" : String).data := by
    intro ty
    by_cases e1 : ty = "hour"
    · subst e1
      refine ⟨((dateStamp (localtime t) ++ "-" ++
        pad2 (localtime t).hour) : String).data, ?_⟩
      rw [shape_hour, String.data_append]
    · by_cases e2 : ty = "minute"
      · subst e2
        refine ⟨((dateStamp (localtime t) ++ "-" ++ pad2 (localtime t).hour ++
          "-" ++ pad2 (localtime t).min) : String).data, ?_⟩
        rw [shape_minute, String.data_append]
      · by_cases e3 : ty = "second"
        · subst e3
          refine ⟨((dateStamp (localtime t) ++ "-" ++
            pad2 (localtime t).hour ++ "-" ++ pad2 (localtime t).min ++
            "-" ++ pad2 (localtime t).sec) : String).data, ?_⟩
          rw [shape_second, String.data_append]
        · refine ⟨(dateStamp (localtime t)).data, ?_⟩
          rw [shape_other ty _ e1 e2 e3, String.data_append]
  exact ⟨hdate, hext, shape_hour _, shape_minute _, shape_second _,
    pad2_length _ (by have := localtime_hour_lt t; omega),
    pad2_length _ (by have := localtime_min_lt t; omega),
    pad2_length _ (by have := localtime_sec_lt t; omega)⟩

/-- **C5**, counterexample.  Three files with times 1 < 2 < 3 and
`maxEntries = 2`: the sweep leaves a single file (it also deletes the
file with time 2), not the claimed `k = 2` files. -/
theorem C5_counterexample :
    rotateLogs [⟨"Logs/a.log", 1, true⟩, ⟨"Logs/b.log", 2, true⟩,
        ⟨"Logs/c.log", 3, true⟩] 2 = [⟨"Logs/c.log", 3, true⟩] ∧
    removedFiles [⟨"Logs/a.log", 1, true⟩, ⟨"Logs/b.log", 2, true⟩,
        ⟨"Logs/c.log", 3, true⟩] 2 =
      [⟨"Logs/a.log", 1, true⟩, ⟨"Logs/b.log", 2, true⟩] ∧
    ([⟨"Logs/c.log", 3, true⟩] : List DirEntry).length ≠ 2 := by
  decide

/-- **C5** (amended).  For regular files with strictly increasing
modification times `t_1 < … < t_n` and `maxEntries = k < n`, one sweep
removes exactly the `n - k + 1` oldest files `t_1 … t_{n-k+1}`, leaving
the `k - 1` newest. -/
theorem C5_sweep_oldest (files : List DirEntry) (k : Nat)
    (hreg : ∀ e ∈ files, e.isRegularFile = true)
    (hsort : List.Pairwise (fun a b : DirEntry => a.mtime < b.mtime) files)
    (hk : 1 ≤ k) (hkn : k < files.length) :
    removedFiles files k = files.take (files.length - k + 1) ∧
    rotateLogs files k = files.drop (files.length - k + 1) ∧
    (rotateLogs files k).length = k - 1 := by
  have hregf : regularFiles files = files :=
    List.filter_eq_self.mpr hreg
  have hsorted : sortByMtime files = files := by
    unfold sortByMtime
    apply List.Sorted.insertionSort_eq
    exact hsort.imp fun hab => Nat.le_of_lt hab
  have hfilter0 : files.filter (fun e => !e.isRegularFile) = [] := by
    apply List.filter_eq_nil_iff.mpr
    intro e he
    simp [hreg e he]
  unfold rotateLogs removedFiles
  rw [hregf, hsorted, hfilter0, sweepLoop_eq_drop, List.nil_append]
  have hlen : files.length + 1 - k = files.length - k + 1 := by omega
  rw [hlen]
  refine ⟨rfl, rfl, ?_⟩
  rw [List.length_drop]
  omega

/-- **C6**, counterexample.  Two files with equal modification times
listed as `b.log` then `a.log`: the sort leaves them in listing order
(the comparator looks only at times), not in the name order `a.log`,
`b.log` that the claimed by-name tie-break would produce. -/
theorem C6_counterexample :
    sortByMtime [⟨"Logs/b.log", 5, true⟩, ⟨"Logs/a.log", 5, true⟩] =
      [⟨"Logs/b.log", 5, true⟩, ⟨"Logs/a.log", 5, true⟩] ∧
    ([⟨"Logs/b.log", 5, true⟩, ⟨"Logs/a.log", 5, true⟩] : List DirEntry) ≠
      [⟨"Logs/a.log", 5, true⟩, ⟨"Logs/b.log", 5, true⟩] := by
  decide

/-- **C6** (amended).  The sweep orders the regular files ascending by
last-modified time — ties are left in an order not determined by names
(the comparator inspects only times; the model resolves `std::sort`'s
unspecified tie order stably) — and repeatedly removes the oldest while
the count is at or above `maxEntries`, so the surviving regular files are
a time-sorted suffix of fewer than `maxEntries` (at most `maxEntries - 1`)
files. -/
theorem C6_sweep_shape (entries : List DirEntry) (k : Nat) (hk : 1 ≤ k) :
    List.Pairwise (fun a b : DirEntry => a.mtime ≤ b.mtime)
      (sweepLoop k (sortByMtime (regularFiles entries))) ∧
    (regularFiles (rotateLogs entries k)).length ≤ k - 1 ∧
    rotateLogs entries k =
      entries.filter (fun e => !e.isRegularFile) ++
        (sortByMtime (regularFiles entries)).drop
          ((sortByMtime (regularFiles entries)).length + 1 - k) := by
  refine ⟨?_, ?_, ?_⟩
  · haveI : IsTotal DirEntry (fun a b => a.mtime ≤ b.mtime) :=
      ⟨fun a b => Nat.le_total a.mtime b.mtime⟩
    haveI : IsTrans DirEntry (fun a b => a.mtime ≤ b.mtime) :=
      ⟨fun a b c hab hbc => Nat.le_trans hab hbc⟩
    have hs : List.Pairwise (fun a b : DirEntry => a.mtime ≤ b.mtime)
        (sortByMtime (regularFiles entries)) :=
      List.sorted_insertionSort _ (regularFiles entries)
    rw [sweepLoop_eq_drop]
    exact List.Pairwise.sublist
      (List.drop_sublist ((sortByMtime (regularFiles entries)).length + 1 - k)
        (sortByMtime (regularFiles entries))) hs
  · have := rotateLogs_count entries k hk
    omega
  · unfold rotateLogs
    rw [sweepLoop_eq_drop]

/-- **C9**.  The sweep enumerates regular files regardless of name or
extension — a `notes.txt` in the directory counts toward `maxEntries` and
is deleted when oldest — while anything that is not a regular file is
neither counted among the candidates nor ever deleted. -/
theorem C9_sweep_frame (entries : List DirEntry) (k : Nat) (hk : 1 ≤ k) :
    (∀ e ∈ entries, e.isRegularFile = false → e ∈ rotateLogs entries k) ∧
    (∀ e ∈ entries, e.isRegularFile = true → e ∈ regularFiles entries) ∧
    (∀ e ∈ removedFiles entries k, e.isRegularFile = true ∧ e ∈ entries) ∧
    removedFiles [⟨"Logs/notes.txt", 1, true⟩, ⟨"Logs/a.log", 2, true⟩] 2 =
      [⟨"Logs/notes.txt", 1, true⟩] := by
  refine ⟨?_, ?_, ?_, by decide⟩
  · intro e he hflag
    unfold rotateLogs
    apply List.mem_append_left
    rw [List.mem_filter]
    refine ⟨he, ?_⟩
    rw [hflag]
    rfl
  · intro e he hflag
    exact mem_regularFiles.mpr ⟨he, hflag⟩
  · intro e he
    unfold removedFiles at he
    have h1 : e ∈ sortByMtime (regularFiles entries) :=
      List.take_subset _ _ he
    have h2 : e ∈ regularFiles entries := (sortByMtime_perm _).mem_iff.mp h1
    obtain ⟨hmem, hflag⟩ := mem_regularFiles.mp h2
    exact ⟨hflag, hmem⟩

/-- **C8**, counterexample.  Policy `second`/frequency 5, fresh logger:
the calls at 200 and 201 lie in one rotation window (the deadline after
the first call is 205, so no rotation separates them), yet their bucket
keys differ — "same window" does not imply "same key". -/
theorem C8_counterexample :
    rotatesAt (logStep (initLogger "second" 5 12 []) 200) 201 = false ∧
    generateLogFileName "second" (localtime 200) ≠
      generateLogFileName "second" (localtime 201) := by
  decide

/-- **C8** (amended).  Two timestamps produce the same bucket key iff
they lie in the same granularity unit (same hour / minute / second);
`frequency` does not enter the key, so a rotation window of `frequency > 1`
units contains timestamps with different keys. -/
theorem C8_key_eq_unit (ty : String)
    (hty : ty = "hour" ∨ ty = "minute" ∨ ty = "second") (t1 t2 : Nat) :
    (generateLogFileName ty (localtime t1) =
      generateLogFileName ty (localtime t2)) ↔
      t1 / unitLen ty = t2 / unitLen ty :=
  key_iff_unit ty hty t1 t2

/-- **C10**.  For an unrecognized `loggingType` (such as the empty string
left in memory when the config file is absent), the file name is the bare
date plus `.log`, the computed next rotation time equals the current
time, and therefore every call of a run with nondecreasing timestamps
rotates (and sweeps). -/
theorem C10_unrecognized_type (ty : String) (f m : Nat)
    (files : List DirEntry) (t : Nat) (ts : List Nat)
    (h1 : ty ≠ "hour") (h2 : ty ≠ "minute") (h3 : ty ≠ "second")
    (hpw : List.Pairwise (· ≤ ·) (t :: ts)) :
    generateLogFileName ty (localtime t) = dateStamp (localtime t) ++ ".log" ∧
    calculateNextRotationTime ty f t = t ∧
    allRotate (initLogger ty f m files) (t :: ts) = true := by
  refine ⟨shape_other ty (localtime t) h1 h2 h3, calc_other ty f t h1 h2 h3, ?_⟩
  apply allRotate_other ty h1 h2 h3 (t :: ts) _ rfl hpw
  intro τ _
  exact Nat.zero_le τ

/-- **C2**.  With `maxEntries ≥ 1`, after every `log()` call of any run
from a fresh logger — whatever the policy, the initial directory contents
and the call timestamps — the directory holds at most `maxEntries` regular
files: the first call always rotates (the deadline starts at 0), a
rotation sweeps down to at most `maxEntries - 1` files before writing, and
calls that do not rotate append to the already-present current file. -/
theorem C2_retention_cap (ty : String) (f m : Nat) (hm : 1 ≤ m)
    (files : List DirEntry) (t : Nat) (ts : List Nat) :
    (regularFiles (runLog (initLogger ty f m files) (t :: ts)).files).length ≤
      m := by
  have h0 : goodState (logStep (initLogger ty f m files) t) :=
    logStep_good _ t hm (Or.inr (Nat.zero_le t))
  have h1 : 1 ≤ (logStep (initLogger ty f m files) t).maxEntries := by
    rw [(logStep_policy _ t).2.2]
    exact hm
  have h2 := runLog_good ts _ h1 h0
  rw [runLog_cons]
  have h3 : (runLog (logStep (initLogger ty f m files) t) ts).maxEntries = m := by
    rw [(runLog_policy ts _).2.2, (logStep_policy _ t).2.2]
    rfl
  have h4 := h2.1
  rw [h3] at h4
  exact h4

/-- **C7**, counterexample to the parenthetical "the one derived from that
bucket key": policy `second`/frequency 5, fresh logger, a call at 300 and
a second call at 302 in the same rotation window: the second call appends
to the file of the bucket of 300, not to the file derived from its own
bucket key. -/
theorem C7_counterexample :
    (runLog (initLogger "second" 5 12 []) [300, 302]).currentLogFile =
      logFilePath "second" 300 ∧
    logFilePath "second" 302 ≠ logFilePath "second" 300 := by
  decide

/-- **C7** (amended).  In a run with nondecreasing timestamps under a
recognized granularity with `frequency ≥ 1`, two calls whose timestamps
have equal bucket keys append to the same file — the currently active
file, which may stem from an earlier bucket key — and the second of them
never reaches the deadline, so it triggers no rotation and no sweep. -/
theorem C7_same_key_same_file (ty : String)
    (hty : ty = "hour" ∨ ty = "minute" ∨ ty = "second")
    (f m : Nat) (hf : 1 ≤ f) (files : List DirEntry)
    (pre mid : List Nat) (t1 t2 : Nat)
    (hpw : List.Pairwise (· ≤ ·) (pre ++ t1 :: (mid ++ [t2])))
    (hkey : generateLogFileName ty (localtime t1) =
      generateLogFileName ty (localtime t2)) :
    rotatesAt (runLog (initLogger ty f m files) (pre ++ t1 :: mid)) t2 =
      false ∧
    (runLog (initLogger ty f m files)
        (pre ++ t1 :: (mid ++ [t2]))).currentLogFile =
      (runLog (initLogger ty f m files) (pre ++ [t1])).currentLogFile := by
  have hty0 : (initLogger ty f m files).loggingType = ty := rfl
  have hpre_ty : (runLog (initLogger ty f m files) pre).loggingType = ty :=
    (runLog_policy pre _).1
  have hpre_f : (runLog (initLogger ty f m files) pre).frequency = f :=
    (runLog_policy pre _).2.1
  have hal_pre : alignedState (runLog (initLogger ty f m files) pre) := by
    apply runLog_aligned pre _ (by rw [hty0]; exact hty)
    show (0 : Nat) % unitLen (initLogger ty f m files).loggingType = 0
    exact Nat.zero_mod _
  have hfut : t1 <
      (logStep (runLog (initLogger ty f m files) pre) t1).nextRotationTime :=
    logStep_deadline_future _ t1 (by rw [hpre_ty]; exact hty)
      (by rw [hpre_f]; exact hf)
  have hal1 : alignedState (logStep (runLog (initLogger ty f m files) pre) t1) :=
    logStep_aligned _ t1 (by rw [hpre_ty]; exact hty) hal_pre
  have hty1 : (logStep (runLog (initLogger ty f m files) pre) t1).loggingType =
      ty := (logStep_policy _ _).1.trans hpre_ty
  have hu12 : t1 / unitLen ty = t2 / unitLen ty :=
    (key_iff_unit ty hty t1 t2).mp hkey
  have hsub : List.Pairwise (· ≤ ·) (t1 :: (mid ++ [t2])) :=
    List.Pairwise.sublist (List.sublist_append_right pre _) hpw
  have ht1le : ∀ τ ∈ mid ++ [t2], t1 ≤ τ := (List.pairwise_cons.mp hsub).1
  have hmid_le_t2 : ∀ τ ∈ mid, τ ≤ t2 := by
    intro τ hτ
    have hpw2 : List.Pairwise (· ≤ ·) (mid ++ [t2]) :=
      (List.pairwise_cons.mp hsub).2
    exact (List.pairwise_append.mp hpw2).2.2 τ hτ t2 (List.mem_singleton.mpr rfl)
  have hmid_unit : ∀ τ ∈ mid, t1 / unitLen ty = τ / unitLen ty := by
    intro τ hτ
    have l1 : t1 / unitLen ty ≤ τ / unitLen ty :=
      Nat.div_le_div_right (ht1le τ (List.mem_append_left _ hτ))
    have l2 : τ / unitLen ty ≤ t2 / unitLen ty :=
      Nat.div_le_div_right (hmid_le_t2 τ hτ)
    omega
  obtain ⟨hc_file, hc_dl, hc_ty⟩ :=
    runLog_same_unit mid (logStep (runLog (initLogger ty f m files) pre) t1) t1
      hal1 hfut
      (by intro τ hτ; rw [hty1]; exact hmid_unit τ hτ)
  have hdec1 : runLog (initLogger ty f m files) (pre ++ t1 :: mid) =
      runLog (logStep (runLog (initLogger ty f m files) pre) t1) mid := by
    rw [runLog_append]
    rfl
  have hno : rotatesAt (runLog (initLogger ty f m files) (pre ++ t1 :: mid)) t2 =
      false := by
    rw [hdec1]
    apply rotatesAt_false_same_unit _ t1 t2
    · show _ % _ = 0
      rw [hc_dl, hc_ty]
      exact hal1
    · rw [hc_dl]
      exact hfut
    · rw [hc_ty, hty1]
      exact hu12
  refine ⟨hno, ?_⟩
  have hdec2 : runLog (initLogger ty f m files) (pre ++ t1 :: (mid ++ [t2])) =
      logStep (runLog (initLogger ty f m files) (pre ++ t1 :: mid)) t2 := by
    have heq : pre ++ t1 :: (mid ++ [t2]) = (pre ++ t1 :: mid) ++ [t2] := by
      simp
    rw [heq, runLog_append]
    rfl
  have hdec3 : runLog (initLogger ty f m files) (pre ++ [t1]) =
      logStep (runLog (initLogger ty f m files) pre) t1 := by
    rw [runLog_append]
    rfl
  have hcond : ¬((runLog (initLogger ty f m files)
      (pre ++ t1 :: mid)).nextRotationTime ≤ t2) := by
    unfold rotatesAt at hno
    exact of_decide_eq_false hno
  rw [hdec2, hdec3]
  unfold logStep
  rw [if_neg hcond]
  show (runLog (initLogger ty f m files) (pre ++ t1 :: mid)).currentLogFile = _
  rw [hdec1]
  exact hc_file

/-- Witness for `C1_deadline_rotation` at policy `second`/5, first call
at 7. -/
theorem C1_deadline_rotation_witness :
    (("second" : String) = "hour" ∨ ("second" : String) = "minute" ∨
      ("second" : String) = "second") ∧ 1 ≤ 5 ∧
    rotatesAt (initLogger "second" 5 12 []) 7 = true :=
  ⟨by decide, by decide,
    (C1_deadline_rotation "second" (by decide) 5 12 (by decide) [] 7).1⟩

/-- Witness for `C2_retention_cap`: `maxEntries = 1`, one call at 0. -/
theorem C2_retention_cap_witness :
    1 ≤ 1 ∧
    (regularFiles (runLog (initLogger "second" 5 1 []) [0]).files).length ≤ 1 :=
  ⟨by decide, C2_retention_cap "second" 5 1 (by decide) [] 0 []⟩

/-- Witness for `C5_sweep_oldest`: two files, `maxEntries = 1`. -/
theorem C5_sweep_oldest_witness :
    removedFiles [⟨"Logs/old.log", 10, true⟩, ⟨"Logs/new.log", 20, true⟩] 1 =
      ([⟨"Logs/old.log", 10, true⟩, ⟨"Logs/new.log", 20, true⟩] :
        List DirEntry).take
        (([⟨"Logs/old.log", 10, true⟩, ⟨"Logs/new.log", 20, true⟩] :
          List DirEntry).length - 1 + 1) ∧
    rotateLogs [⟨"Logs/old.log", 10, true⟩, ⟨"Logs/new.log", 20, true⟩] 1 =
      ([⟨"Logs/old.log", 10, true⟩, ⟨"Logs/new.log", 20, true⟩] :
        List DirEntry).drop
        (([⟨"Logs/old.log", 10, true⟩, ⟨"Logs/new.log", 20, true⟩] :
          List DirEntry).length - 1 + 1) ∧
    (rotateLogs [⟨"Logs/old.log", 10, true⟩, ⟨"Logs/new.log", 20, true⟩]
      1).length = 1 - 1 :=
  C5_sweep_oldest [⟨"Logs/old.log", 10, true⟩, ⟨"Logs/new.log", 20, true⟩] 1
    (by decide) (by decide) (by decide) (by decide)

/-- Witness for `C6_sweep_shape`: one file, `maxEntries = 1`. -/
theorem C6_sweep_shape_witness :
    List.Pairwise (fun a b : DirEntry => a.mtime ≤ b.mtime)
      (sweepLoop 1 (sortByMtime (regularFiles [⟨"Logs/x.log", 4, true⟩]))) ∧
    (regularFiles (rotateLogs [⟨"Logs/x.log", 4, true⟩] 1)).length ≤ 1 - 1 ∧
    rotateLogs [⟨"Logs/x.log", 4, true⟩] 1 =
      List.filter (fun e => !e.isRegularFile) [⟨"Logs/x.log", 4, true⟩] ++
        (sortByMtime (regularFiles [⟨"Logs/x.log", 4, true⟩])).drop
          ((sortByMtime (regularFiles [⟨"Logs/x.log", 4, true⟩])).length +
            1 - 1) :=
  C6_sweep_shape [⟨"Logs/x.log", 4, true⟩] 1 (by decide)

/-- Witness for `C7_same_key_same_file`: policy `minute`/1, calls at 60,
60 and 119 (all in minute 1). -/
theorem C7_same_key_same_file_witness :
    rotatesAt (runLog (initLogger "minute" 1 12 []) [60, 60]) 119 = false ∧
    (runLog (initLogger "minute" 1 12 []) [60, 60, 119]).currentLogFile =
      (runLog (initLogger "minute" 1 12 []) [60]).currentLogFile :=
  C7_same_key_same_file "minute" (by decide) 1 12 (by decide) [] [] [60] 60 119
    (by decide) (by decide)

/-- Witness for `C8_key_eq_unit` at `hour` granularity, timestamps 0 and
59. -/
theorem C8_key_eq_unit_witness :
    (generateLogFileName "hour" (localtime 0) =
      generateLogFileName "hour" (localtime 59)) ↔
      0 / unitLen "hour" = 59 / unitLen "hour" :=
  C8_key_eq_unit "hour" (by decide) 0 59

/-- Witness for `C9_sweep_frame`: a subdirectory entry survives the
sweep, and the `notes.txt` instance is deleted. -/
theorem C9_sweep_frame_witness :
    (⟨"Logs/sub", 0, false⟩ : DirEntry) ∈
      rotateLogs [⟨"Logs/sub", 0, false⟩] 1 ∧
    removedFiles [⟨"Logs/notes.txt", 1, true⟩, ⟨"Logs/a.log", 2, true⟩] 2 =
      [⟨"Logs/notes.txt", 1, true⟩] :=
  ⟨(C9_sweep_frame [⟨"Logs/sub", 0, false⟩] 1 (by decide)).1
      ⟨"Logs/sub", 0, false⟩ (by decide) rfl,
    (C9_sweep_frame [⟨"Logs/sub", 0, false⟩] 1 (by decide)).2.2.2⟩

/-- Witness for `C10_unrecognized_type`: empty `loggingType`, calls at 3
and 4. -/
theorem C10_unrecognized_type_witness :
    generateLogFileName "" (localtime 3) = dateStamp (localtime 3) ++ ".log" ∧
    calculateNextRotationTime "" 5 3 = 3 ∧
    allRotate (initLogger "" 5 12 []) [3, 4] = true :=
  C10_unrecognized_type "" 5 12 [] 3 [4] (by decide) (by decide) (by decide)
    (by decide)

end CircularLogger

